import Mathlib

/-!
Verification of the `wordy` dictionary manager (`src/dictionary_manager.py`).

The Python class `DictionaryManager` is shallowly embedded: the SQLite
database becomes an explicit `DB` value (lists of rows plus autoincrement
counters and a logical clock standing for `CURRENT_TIMESTAMP`), and each
method becomes a pure Lean function from the old state to the new state and
the method's return value.  External effects are parameters: the file
system seen by one `import_bgl` call is an `ImportEnv` (existence of the
path, the first 32 header bytes, the external pyglossary decoder), and a
directory scan sees a `ScanEnv`.

Modelling conventions, noted where they matter:
* Python `str.strip` and `str.lower` and SQLite `LOWER` are modelled on the
  ASCII fragment (`pyStrip`, `lowerAscii`); all claims and counterexamples
  below live inside that fragment.
* SQLite `LIKE` (ASCII case-insensitive, `%`/`_` wildcards, no ESCAPE) is
  `likeMatch`.
* `INSERT OR REPLACE` on the `UNIQUE` column `name` deletes the conflicting
  row and inserts a fresh row with a new AUTOINCREMENT id; the Python
  `sqlite3` driver leaves `PRAGMA foreign_keys` off, so `ON DELETE CASCADE`
  does not fire.  Both facts are reflected literally in `importBgl`.
* SQL `=` against a `NULL` parameter is never true; `sqlEqOpt` models this
  three-valued-logic collapse for the nullable `dictionary_id` columns.
* Timestamps are a strictly increasing logical clock, so "newest by
  timestamp" is unambiguous.
-/

/-- ASCII lower-casing of one character: models both Python `str.lower` and
SQLite `LOWER` on the ASCII fragment. -/
def lowerAscii (c : Char) : Char :=
  if 'A' ≤ c ∧ c ≤ 'Z' then Char.ofNat (c.toNat + 32) else c

/-- Lower-case a string (ASCII fragment of Python `str.lower` / SQLite `LOWER`). -/
def lowerStr (s : String) : String :=
  ⟨s.toList.map lowerAscii⟩

/-- The whitespace characters stripped by `str.strip` (ASCII fragment). -/
def pyIsSpace (c : Char) : Bool :=
  c == ' ' || c == '\t' || c == '\n' || c == '\r' || c == '\x0b' || c == '\x0c'

/-- Python `str.strip()` on the ASCII whitespace fragment. -/
def pyStrip (s : String) : String :=
  ⟨((s.toList.dropWhile pyIsSpace).reverse.dropWhile pyIsSpace).reverse⟩

/-- Python `needle in hay` for byte strings / strings: contiguous
subsequence containment. -/
def containsSub [BEq α] (needle : List α) : List α → Bool
  | [] => needle == []
  | c :: t => needle.isPrefixOf (c :: t) || containsSub needle t

/-- SQLite `LIKE`: `%` matches any sequence (some suffix of the text
matches the rest of the pattern), `_` any single character, plain
characters compare ASCII-case-insensitively.  First argument is the
pattern, second the text. -/
def likeMatch : List Char → List Char → Bool
  | [], cs => cs.isEmpty
  | p :: ps, cs =>
    if p = '%' then cs.tails.any (fun suf => likeMatch ps suf)
    else
      match cs with
      | [] => false
      | c :: cs' => (if p = '_' then true else lowerAscii p == lowerAscii c) && likeMatch ps cs'

/-- SQLite's default BINARY collation on text, used by `ORDER BY word`:
lexicographic comparison of code points (equivalently of UTF-8 bytes). -/
def charListLe : List Char → List Char → Bool
  | [], _ => true
  | _ :: _, [] => false
  | a :: as, b :: bs =>
    if a.toNat = b.toNat then charListLe as bs else decide (a.toNat < b.toNat)

/-- The relation `charListLe` is total. -/
def charListLe_total_pf : ∀ a b : List Char, charListLe a b = true ∨ charListLe b a = true := by
  intro a
  induction a with
  | nil => intro b; left; rfl
  | cons x xs ih =>
    intro b
    cases b with
    | nil => right; rfl
    | cons y ys =>
      simp only [charListLe]
      rcases Nat.lt_trichotomy x.toNat y.toNat with h | h | h
      · left; simp [h, Nat.ne_of_lt h]
      · rcases ih ys with h' | h' <;> [left; right] <;> simp [h, h']
      · right; simp [h, Nat.ne_of_lt h]

/-- The relation `charListLe` is transitive. -/
def charListLe_trans_pf : ∀ a b c : List Char,
    charListLe a b = true → charListLe b c = true → charListLe a c = true := by
  intro a
  induction a with
  | nil => intro b c _ _; rfl
  | cons x xs ih =>
    intro b c h1 h2
    cases b with
    | nil => simp [charListLe] at h1
    | cons y ys =>
      cases c with
      | nil => simp [charListLe] at h2
      | cons z zs =>
        simp only [charListLe] at h1 h2 ⊢
        split at h1 <;> split at h2 <;> rename_i hxy hyz
        · rw [if_pos (hxy.trans hyz)]
          exact ih ys zs h1 h2
        · rw [decide_eq_true_iff] at h2
          rw [if_neg (by omega), decide_eq_true_iff]
          omega
        · rw [decide_eq_true_iff] at h1
          rw [if_neg (by omega), decide_eq_true_iff]
          omega
        · rw [decide_eq_true_iff] at h1 h2
          rw [if_neg (by omega), decide_eq_true_iff]
          omega

/-! ## Format sniffer (`DictionaryManager._is_encrypted_bgl`) -/

/-- The regional-vendor byte fragments from the source:
`b"hFarsi"`, `b"Aryanpur"`, `b"BGL"`, `b"\x1f\x8b"`. -/
def vendorSigs : List (List Nat) :=
  [[104, 70, 97, 114, 115, 105],
   [65, 114, 121, 97, 110, 112, 117, 114],
   [66, 71, 76],
   [31, 139]]

/-- The sniffer `DictionaryManager._is_encrypted_bgl`, translated from the source.
The argument is the first (up to) 32 bytes of the file, or `none` when the
read raised (`except Exception`); the Python code interpolates the
exception text into the error-context reason. -/
def isEncryptedBgl (header? : Option (List Nat)) : Bool × String :=
  match header? with
  | none => (false, "Error checking header: read failure")
  | some header =>
    if [0, 1].isPrefixOf header || [1, 0].isPrefixOf header then
      (false, "Unencrypted BGL detected")
    else if containsSub [66, 65, 66] header
        || containsSub [255, 254] (header.take 4)
        || containsSub [254, 255] (header.take 4) then
      (true, "ENCRYPTED: Commercial Babylon dictionary (DRM protected)")
    else if vendorSigs.any (fun sig => containsSub sig header) then
      if !([0, 1].isPrefixOf header || [1, 0].isPrefixOf header) then
        (true, "LIKELY ENCRYPTED: Persian commercial dictionary (Aryanpur/hFarsi)")
      else
        (false, "Unknown format - may be unencrypted")
    else
      (false, "Unknown format - may be unencrypted")

/-- The three sniffer classes named by the specification. -/
inductive SniffClass where
  | Clear
  | Encrypted
  | LikelyEncrypted
deriving DecidableEq, Repr

/-- Map the source's `(bool, reason)` pair onto the specification's three
classes: `False` is `Clear`; `True` with the commercial-DRM reason is
`Encrypted`; the remaining `True` reason is `LikelyEncrypted`. -/
def classifySniff (r : Bool × String) : SniffClass :=
  if r.1 = false then .Clear
  else if r.2 = "ENCRYPTED: Commercial Babylon dictionary (DRM protected)" then .Encrypted
  else .LikelyEncrypted

/-- Modelled from the spec's words (claim C4): the sniffer's heuristic
rules evaluated in order, first match winning — standard header prefix
gives `Clear`; vendor signature or byte-order mark within the first 4
bytes gives `Encrypted`; a regional-vendor name fragment gives
`LikelyEncrypted`; otherwise `Clear`; a read failure gives `Clear`. -/
def sniffSpec (header? : Option (List Nat)) : SniffClass :=
  match header? with
  | none => .Clear
  | some header =>
    if [0, 1].isPrefixOf header || [1, 0].isPrefixOf header then
      .Clear
    else if containsSub [66, 65, 66] header
        || containsSub [255, 254] (header.take 4)
        || containsSub [254, 255] (header.take 4) then
      .Encrypted
    else if vendorSigs.any (fun sig => containsSub sig header) then
      .LikelyEncrypted
    else
      .Clear

/-! ## Persisted store (the SQLite schema of `_init_db`) -/

/-- A row of the `dictionaries` table
(`id`, `name UNIQUE`, `source_path`, `word_count`, `is_encrypted`);
`created_at` plays no role in any operation and is omitted. -/
structure DictRow where
  id : Nat
  name : String
  sourcePath : String
  wordCount : Nat
  isEncrypted : Bool
deriving DecidableEq, Repr

/-- A row of the `entries` table. -/
structure EntryRow where
  id : Nat
  dictId : Nat
  word : String
  defi : String
deriving DecidableEq, Repr

/-- A row of the `search_history` table; `searchedAt` is the logical
timestamp standing for `CURRENT_TIMESTAMP`. -/
structure HistRow where
  id : Nat
  query : String
  dictId : Option Nat
  searchedAt : Nat
deriving DecidableEq, Repr

/-- A row of the `favorites` table. -/
structure FavRow where
  id : Nat
  word : String
  defi : String
  dictId : Option Nat
  addedAt : Nat
deriving DecidableEq, Repr

/-- The whole SQLite database: the four tables, their AUTOINCREMENT
counters, and a logical clock issuing strictly increasing timestamps. -/
structure DB where
  dicts : List DictRow
  entries : List EntryRow
  history : List HistRow
  favorites : List FavRow
  nextDictId : Nat
  nextEntryId : Nat
  nextHistId : Nat
  nextFavId : Nat
  clock : Nat
deriving DecidableEq, Repr

/-- A `DictionaryManager` instance: the database it owns plus the
process-wide `current_dict_id` pointer. -/
structure Manager where
  db : DB
  currentDictId : Option Nat
deriving DecidableEq, Repr

/-- The database right after `_init_db` on a fresh file. -/
def emptyDB : DB :=
  { dicts := [], entries := [], history := [], favorites := [],
    nextDictId := 1, nextEntryId := 1, nextHistId := 1, nextFavId := 1, clock := 0 }

/-- A freshly constructed manager (`current_dict_id = None`). -/
def initManager : Manager :=
  { db := emptyDB, currentDictId := none }

/-- SQL `=` on the nullable `dictionary_id` columns: comparing against a
`NULL` parameter (or a `NULL` cell) yields `NULL`, which filters treat as
false. -/
def sqlEqOpt : Option Nat → Option Nat → Bool
  | some a, some b => a == b
  | _, _ => false

/-- The truthiness test `not self.current_dict_id`: true for `None` and
for `0` (SQLite row ids are ≥ 1, so `0` never occurs in practice). -/
def noActiveDict (o : Option Nat) : Bool :=
  o.getD 0 == 0

/-! ## Search and suggestions -/

/-- The `ORDER BY word` relation on selected `(word, definition)` rows (BINARY
collation). -/
def entryLe (a b : String × String) : Prop := charListLe a.1.toList b.1.toList = true

instance : DecidableRel entryLe :=
  fun _ _ => inferInstanceAs (Decidable (_ = true))

instance : IsTotal (String × String) entryLe :=
  ⟨fun a b => charListLe_total_pf a.1.toList b.1.toList⟩

instance : IsTrans (String × String) entryLe :=
  ⟨fun a b c => charListLe_trans_pf a.1.toList b.1.toList c.1.toList⟩

/-- The `ORDER BY word` relation on selected words (BINARY collation). -/
def wordLe (a b : String) : Prop := charListLe a.toList b.toList = true

instance : DecidableRel wordLe :=
  fun _ _ => inferInstanceAs (Decidable (_ = true))

instance : IsTotal String wordLe := ⟨fun a b => charListLe_total_pf a.toList b.toList⟩

instance : IsTrans String wordLe := ⟨fun a b c => charListLe_trans_pf a.toList b.toList c.toList⟩

/-- Method `DictionaryManager.search`: guard on active dictionary and blank
query, then
`SELECT word, definition FROM entries WHERE dictionary_id = ? AND
LOWER(word) LIKE ? ORDER BY word LIMIT ?` with pattern `query + "%"`. -/
def search (m : Manager) (query : String) (limit : Nat := 20) : List (String × String) :=
  if noActiveDict m.currentDictId || pyStrip query == "" then []
  else
    let q := lowerStr (pyStrip query)
    let did := m.currentDictId.getD 0
    let rows := m.db.entries.filter fun e =>
      e.dictId == did && likeMatch (q.toList ++ ['%']) (lowerStr e.word).toList
    ((rows.map fun e => (e.word, e.defi)).insertionSort entryLe).take limit

/-- Method `DictionaryManager.get_suggestions`: same guard and matching rule,
`SELECT DISTINCT word ... ORDER BY word LIMIT ?`. -/
def getSuggestions (m : Manager) (prefixQ : String) (limit : Nat := 10) : List String :=
  if noActiveDict m.currentDictId || pyStrip prefixQ == "" then []
  else
    let q := lowerStr (pyStrip prefixQ)
    let did := m.currentDictId.getD 0
    let rows := m.db.entries.filter fun e =>
      e.dictId == did && likeMatch (q.toList ++ ['%']) (lowerStr e.word).toList
    (((rows.map fun e => e.word).insertionSort wordLe).dedup).take limit

/-! ## History ledger -/

/-- The `ORDER BY searched_at DESC` relation on history rows. -/
def histGe (a b : HistRow) : Prop := b.searchedAt ≤ a.searchedAt

instance : DecidableRel histGe := fun a b => inferInstanceAs (Decidable (b.searchedAt ≤ a.searchedAt))

instance : IsTotal HistRow histGe := ⟨fun a b => le_total b.searchedAt a.searchedAt⟩

instance : IsTrans HistRow histGe := ⟨fun _ _ _ h h' => le_trans h' h⟩

/-- Method `DictionaryManager.add_to_history`: no-op on blank queries; otherwise
insert the stripped query tagged with the active dictionary, then
`DELETE FROM search_history WHERE id NOT IN
(SELECT id FROM search_history ORDER BY searched_at DESC LIMIT 100)`. -/
def addToHistory (m : Manager) (query : String) : Manager :=
  if pyStrip query == "" then m
  else
    let row : HistRow :=
      { id := m.db.nextHistId, query := pyStrip query,
        dictId := m.currentDictId, searchedAt := m.db.clock }
    let rows := m.db.history ++ [row]
    let keep := ((rows.insertionSort histGe).take 100).map (fun r => r.id)
    { m with db := { m.db with
        history := rows.filter (fun r => keep.contains r.id),
        nextHistId := m.db.nextHistId + 1,
        clock := m.db.clock + 1 } }

/-- Method `DictionaryManager.get_history`:
`SELECT query, searched_at ... ORDER BY searched_at DESC LIMIT ?`. -/
def getHistory (m : Manager) (limit : Nat := 20) : List (String × Nat) :=
  ((m.db.history.insertionSort histGe).take limit).map fun r => (r.query, r.searchedAt)

/-- Method `DictionaryManager.clear_history`. -/
def clearHistory (m : Manager) : Manager :=
  { m with db := { m.db with history := [] } }

/-! ## Favorites ledger -/

/-- The `WHERE word = ? AND dictionary_id = ?` condition shared by the
favorites queries, with the active dictionary as the (nullable)
parameter. -/
def favMatches (cur : Option Nat) (w : String) (r : FavRow) : Bool :=
  r.word == w && sqlEqOpt r.dictId cur

/-- Method `DictionaryManager.add_to_favorites`: check-then-insert; returns
whether a row was inserted. -/
def addToFavorites (m : Manager) (word defi : String) : Manager × Bool :=
  if m.db.favorites.any (favMatches m.currentDictId word) then (m, false)
  else
    ({ m with db := { m.db with
        favorites := m.db.favorites ++
          [{ id := m.db.nextFavId, word := word, defi := defi,
             dictId := m.currentDictId, addedAt := m.db.clock }],
        nextFavId := m.db.nextFavId + 1,
        clock := m.db.clock + 1 } }, true)

/-- Method `DictionaryManager.remove_from_favorites`: delete matching rows,
report `rowcount > 0`. -/
def removeFromFavorites (m : Manager) (word : String) : Manager × Bool :=
  let remaining := m.db.favorites.filter fun r => !(favMatches m.currentDictId word r)
  ({ m with db := { m.db with favorites := remaining } },
   decide (remaining.length < m.db.favorites.length))

/-- Method `DictionaryManager.is_favorite`. -/
def isFavorite (m : Manager) (word : String) : Bool :=
  m.db.favorites.any (favMatches m.currentDictId word)

/-! ## Path helpers (`pathlib.Path` fragments used by the source) -/

/-- The final path component (`Path(p).name`): everything after the last
`/`. -/
def afterLastSlash (l : List Char) : List Char :=
  (l.reverse.takeWhile (fun c => c ≠ '/')).reverse

/-- Index of the last `.` in a component (`name.rfind('.')`). -/
def lastDotIdx : List Char → Option Nat
  | [] => none
  | c :: cs =>
    match lastDotIdx cs with
    | some i => some (i + 1)
    | none => if c = '.' then some 0 else none

/-- CPython `Path(name).stem` on a single component: the name
up to its last `.`, provided that dot is neither leading nor trailing. -/
def pyStemName (name : List Char) : List Char :=
  match lastDotIdx name with
  | some i => if 0 < i ∧ i + 1 < name.length then name.take i else name
  | none => name

/-- CPython `Path(name).suffix` on a single component. -/
def pySuffixName (name : List Char) : List Char :=
  match lastDotIdx name with
  | some i => if 0 < i ∧ i + 1 < name.length then name.drop i else []
  | none => []

/-- Full-path `Path(p).stem`. -/
def pyStem (p : String) : String :=
  ⟨pyStemName (afterLastSlash p.toList)⟩

/-- Model of `str(Path(p).with_suffix(".bgl"))`: the directory part unchanged, the
final component's suffix replaced by `.bgl` (`resolve()` is the identity
here: the source has already taken `os.path.abspath`). -/
def withSuffixBgl (p : String) : String :=
  let l := p.toList
  let name := afterLastSlash l
  ⟨l.take (l.length - name.length) ++ pyStemName name ++ ".bgl".toList⟩

/-- The derived dictionary name:
`Path(p).stem.replace(" ", "_").replace(".", "_").replace("-", "_")`. -/
def deriveDictName (p : String) : String :=
  ⟨(pyStemName (afterLastSlash p.toList)).map fun c =>
    if c = ' ' || c = '.' || c = '-' then '_' else c⟩

/-- Python `f"{n:,}"`: decimal digits grouped in threes by commas,
processing the reversed digit list. -/
def commaRevAux : List Char → Nat → List Char
  | [], _ => []
  | c :: cs, k => if k = 3 then ',' :: c :: commaRevAux cs 1 else c :: commaRevAux cs (k + 1)

/-- Python `f"{n:,}"` for a natural number. -/
def commaFmt (n : Nat) : String :=
  ⟨(commaRevAux (toString n).toList.reverse 0).reverse⟩

/-! ## Ingestion pipeline (`DictionaryManager.import_bgl`) -/

/-- One record yielded by the external pyglossary decoder: `isDat` models
`entry.isData()`, the other fields `entry.s_word` / `entry.defi`. -/
structure RawEntry where
  isDat : Bool
  word : String
  defi : String
deriving DecidableEq, Repr

/-- Outcome of one decoder invocation: `directRead` raising, the entry
iteration raising, or a finite sequence of records. -/
inductive DecodeOutcome where
  | readFail (msg : String)
  | iterFail (msg : String)
  | ok (raw : List RawEntry)

/-- Everything one `import_bgl` call observes outside the database: the
(absolute) path argument, whether it exists, the first 32 bytes (or
`none` for a read failure), the state of the lowercase-suffix copy
workaround, and the external decoder keyed by the path it is invoked
on. -/
structure ImportEnv where
  path : String
  pathExists : Bool
  header : Option (List Nat)
  lowercasePathExists : Bool
  copySucceeds : Bool
  decode : String → DecodeOutcome

/-- The path the decoder is invoked on and that is recorded as
`source_path`: the source rebinds `bgl_path` to the lowercase-suffix copy
only when the path is not already lower-case, the copy target does not
exist yet, and `shutil.copy2` succeeds. -/
def effectivePath (env : ImportEnv) : String :=
  if env.path != lowerStr env.path && !env.lowercasePathExists && env.copySucceeds then
    withSuffixBgl env.path
  else
    env.path

/-- The encryption-related keywords scanned for in decoder error
messages. -/
def encKeywords : List (List Char) :=
  ["encrypt".toList, "password".toList, "drm".toList, "protected".toList]

/-- The message returned when the sniffer reports encryption. -/
def encryptionDetectedMsg (hint : String) : String :=
  "🔒 ENCRYPTION DETECTED\n\n" ++
  "File appears to be a commercial encrypted dictionary (" ++ hint ++ ").\n\n" ++
  "⚠️  Babylon's Persian dictionaries (Aryanpur Pro, hFarsi Advanced) use proprietary DRM\n" ++
  "that cannot be legally decrypted by third-party tools.\n\n" ++
  "✅ WORKING ALTERNATIVES:\n" ++
  "   • Use FREE unencrypted dictionaries from: https://github.com/ilius/pyglossary/wiki/BGL\n" ++
  "   • Convert StarDict format (.dict.dz + .idx) using pyglossary\n" ++
  "   • Export definitions via Babylon's official software first"

/-- The message returned when a decoder error mentions an encryption
keyword. -/
def decryptionFailedMsg : String :=
  "🔒 DECRYPTION FAILED\n\n" ++
  "This is a commercial encrypted Babylon dictionary.\n" ++
  "No legal tool can decrypt these files.\n\n" ++
  "✅ Get FREE Persian dictionaries:\n" ++
  "   https://github.com/kiomarszadeh/Persian-Dictionary"

/-- The `(word, definition)` pairs surviving the drain
(`if entry.isData(): continue; if word and defi: append`). -/
def drainedPairs (raw : List RawEntry) : List (String × String) :=
  (raw.filter fun r => !r.isDat && r.word != "" && r.defi != "").map fun r => (r.word, r.defi)

/-- The cleaning pass: strip both fields, keep the pair if both remain
non-empty. -/
def cleanPairs (entries : List (String × String)) : List (String × String) :=
  entries.filterMap fun p =>
    let w := pyStrip p.1
    let d := pyStrip p.2
    if w != "" && d != "" then some (w, d) else none

/-- Method `DictionaryManager.import_bgl`, translated from the source.  Returns
the new manager state and the Python `(bool, str)` result.  The
`INSERT OR REPLACE` removes any row with the same (UNIQUE) name and
appends a fresh row carrying the next AUTOINCREMENT id; foreign keys are
off in the Python `sqlite3` driver, so no cascade accompanies that
removal, and the `DELETE FROM entries` that follows uses the freshly
selected id. -/
def importBgl (env : ImportEnv) (m : Manager) : Manager × Bool × String :=
  if !env.pathExists then
    (m, false, "File not found: " ++ env.path)
  else if !(".bgl".toList.isSuffixOf (lowerStr env.path).toList) then
    (m, false, "File must have .bgl extension (case-insensitive check)")
  else
    let sniff := isEncryptedBgl env.header
    if sniff.1 then
      (m, false, encryptionDetectedMsg sniff.2)
    else
      let dictName := deriveDictName env.path
      let dpath := effectivePath env
      match env.decode dpath with
      | .readFail e =>
        if encKeywords.any (fun k => containsSub k (lowerStr e).toList) then
          (m, false, decryptionFailedMsg)
        else
          (m, false, "BGL parsing error: " ++ e)
      | .iterFail e =>
        (m, false, "Error reading entries: " ++ e)
      | .ok raw =>
        let entries := drainedPairs raw
        if entries.isEmpty then
          (m, false, "Dictionary contains no entries (likely encrypted or corrupted)")
        else
          let cleaned := cleanPairs entries
          if cleaned.isEmpty then
            (m, false, "No valid entries after cleaning (encoding issues)")
          else
            let db := m.db
            let db1 : DB := { db with
              dicts := db.dicts.filter (fun r => r.name != dictName) ++
                [{ id := db.nextDictId, name := dictName, sourcePath := dpath,
                   wordCount := cleaned.length, isEncrypted := false }],
              nextDictId := db.nextDictId + 1 }
            let dictId := ((db1.dicts.find? (fun r => r.name == dictName)).map (fun r => r.id)).getD 0
            let db2 : DB := { db1 with
              entries := db1.entries.filter (fun e => e.dictId != dictId) }
            let db3 : DB := { db2 with
              entries := db2.entries ++ cleaned.enum.map (fun p =>
                { id := db2.nextEntryId + p.1, dictId := dictId,
                  word := p.2.1, defi := p.2.2 : EntryRow }),
              nextEntryId := db2.nextEntryId + cleaned.length }
            ({ db := db3, currentDictId := some dictId }, true,
             "✅ Imported " ++ commaFmt cleaned.length ++ " entries from '" ++ dictName ++ "'")

/-! ## Directory scanner (`DictionaryManager.scan_and_import`) -/

/-- One candidate regular file seen by the scanner: its basename and
the environment its ingestion would run in (`env.path` is the file's
absolute path, used both for the dedup check and the import). -/
structure FileInfo where
  name : String
  env : ImportEnv

/-- The directory a scan observes. `files` lists only regular files, in
iteration order. -/
structure ScanEnv where
  directory : String
  dirExists : Bool
  files : List FileInfo

/-- One result record of a scan; `file` is absent on the error/info
records. -/
structure ScanRec where
  file : Option String
  status : String
  message : String
deriving DecidableEq, Repr

/-- The scanner's eligibility filter: `f.suffix.lower() == ".bgl"`. -/
def eligibleFile (f : FileInfo) : Bool :=
  lowerStr ⟨pySuffixName f.name.toList⟩ == ".bgl"

/-- The record built for a non-skipped file from its import outcome. -/
def importRec (f : FileInfo) (m : Manager) : ScanRec :=
  let r := importBgl f.env m
  { file := some f.name, status := if r.2.1 then "success" else "error", message := r.2.2 }

/-- The skip record. -/
def skipRec (name : String) : ScanRec :=
  { file := some name, status := "skip", message := "Already imported" }

/-- The scanner's per-file loop over the eligible files, threading the
manager state; `existing` is the set of recorded source paths snapshotted
before the loop. -/
def scanLoop (existing : List String) : List FileInfo → Manager → Manager × List ScanRec
  | [], m => (m, [])
  | f :: fs, m =>
    if existing.contains f.env.path then
      let rest := scanLoop existing fs m
      (rest.1, skipRec f.name :: rest.2)
    else
      let r := importBgl f.env m
      let rest := scanLoop existing fs r.1
      (rest.1, { file := some f.name, status := if r.2.1 then "success" else "error",
                 message := r.2.2 } :: rest.2)

/-- Method `DictionaryManager.scan_and_import`, translated from the source. -/
def scanAndImport (env : ScanEnv) (m : Manager) : Manager × List ScanRec :=
  if !env.dirExists then
    (m, [{ file := none, status := "error",
           message := "Directory not found: " ++ env.directory }])
  else
    let files := env.files.filter eligibleFile
    if files.isEmpty then
      (m, [{ file := none, status := "info", message := "No BGL files found in directory" }])
    else
      scanLoop (m.db.dicts.map (fun r => r.sourcePath)) files m

/-- Well-formedness of the history table: row ids are distinct and below
the AUTOINCREMENT counter.  It holds in the fresh database and is
preserved by every operation. -/
def wfHist (db : DB) : Prop :=
  (db.history.map (fun r => r.id)).Nodup ∧ ∀ r ∈ db.history, r.id < db.nextHistId

/-! ## Concrete fixtures used by witnesses and counterexamples -/

/-- A one-entry active manager (C2 counterexample). -/
def mgrC2cex : Manager :=
  { db := { emptyDB with entries := [{ id := 1, dictId := 1, word := "ab", defi := "d" }] },
    currentDictId := some 1 }

/-- A three-entry active manager (C2 witness). -/
def mgrC2wit : Manager :=
  { db := { emptyDB with entries :=
      [{ id := 1, dictId := 1, word := "Beta", defi := "d" },
       { id := 2, dictId := 1, word := "alpha", defi := "e" },
       { id := 3, dictId := 1, word := "be", defi := "f" }] },
    currentDictId := some 1 }

/-- A two-entry source file at an all-lower-case path with a clear header
(C1). -/
def envC1 : ImportEnv :=
  { path := "/dicts/farsi_basic.bgl", pathExists := true, header := some [0, 1, 2, 3],
    lowercasePathExists := false, copySucceeds := true,
    decode := fun _ => .ok [{ isDat := false, word := "alpha", defi := "a" },
                            { isDat := false, word := "beta", defi := "b" }] }

/-- The spec's success scenario: `farsi-basic.bgl` with a standard header
and a decoder yielding two textual entries and one data record (C9). -/
def envC9 : ImportEnv :=
  { path := "/dicts/farsi-basic.bgl", pathExists := true, header := some [0, 1, 9, 9],
    lowercasePathExists := false, copySucceeds := true,
    decode := fun _ => .ok [{ isDat := false, word := "salam", defi := "hello" },
                            { isDat := true, word := "img", defi := "blob" },
                            { isDat := false, word := " kook ", defi := "tuned" }] }

/-- A not-yet-imported candidate file (C8). -/
def fileC8 : FileInfo :=
  { name := "new.bgl",
    env := { path := "/dicts/new.bgl", pathExists := true, header := some [0, 1],
             lowercasePathExists := false, copySucceeds := true,
             decode := fun _ => .ok [{ isDat := false, word := "w", defi := "meaning" }] } }

/-- A candidate file whose absolute path is already recorded (C8). -/
def fileC8skip : FileInfo :=
  { name := "old.bgl",
    env := { path := "/dicts/old.bgl", pathExists := true, header := some [0, 1],
             lowercasePathExists := false, copySucceeds := true,
             decode := fun _ => .ok [{ isDat := false, word := "v", defi := "sense" }] } }

/-- A missing directory (C8). -/
def envC8 : ScanEnv := { directory := "/missing", dirExists := false, files := [] }

/-- An existing directory holding the two candidate files (C8). -/
def envC8s : ScanEnv :=
  { directory := "/dicts", dirExists := true, files := [fileC8skip, fileC8] }

/-! ## Helper lemmas -/

theorem toNat_ofNat_valid (n : Nat) (h : n < 0xd800) : (Char.ofNat n).toNat = n := by
  simp [Char.ofNat, Nat.isValidChar, h, Char.ofNatAux, Char.toNat, UInt32.toNat,
    BitVec.toNat_ofNatLt]

theorem lowerAscii_idem (c : Char) : lowerAscii (lowerAscii c) = lowerAscii c := by
  unfold lowerAscii
  by_cases h : 'A' ≤ c ∧ c ≤ 'Z'
  · simp only [h, if_true]
    have h90 : c.toNat ≤ 90 := by
      have := h.2; rw [Char.le_def] at this; exact this
    have hv : (Char.ofNat (c.toNat + 32)).toNat = c.toNat + 32 :=
      toNat_ofNat_valid _ (by omega)
    have hno : ¬ ('A' ≤ Char.ofNat (c.toNat + 32) ∧ Char.ofNat (c.toNat + 32) ≤ 'Z') := by
      intro hc
      have h65 : 65 ≤ c.toNat := by have := h.1; rw [Char.le_def] at this; exact this
      have hle : (Char.ofNat (c.toNat + 32)).toNat ≤ 90 := by
        have := hc.2; rw [Char.le_def] at this; exact this
      omega
    simp [hno]
  · simp [h]

theorem map_lowerAscii_idem (l : List Char) :
    (l.map lowerAscii).map lowerAscii = l.map lowerAscii := by
  simp only [List.map_map]
  exact List.map_congr_left fun a _ => lowerAscii_idem a

theorem toList_lowerStr (s : String) : (lowerStr s).toList = s.toList.map lowerAscii := rfl

theorem likeMatch_percent_end (cs : List Char) : likeMatch ['%'] cs = true := by
  induction cs with
  | nil => rfl
  | cons c cs ih => simp [likeMatch, List.tails, ih] at ih ⊢

theorem likeMatch_literal (pat : List Char) (hw : ∀ c ∈ pat, c ≠ '%' ∧ c ≠ '_') :
    ∀ cs : List Char, likeMatch (pat ++ ['%']) cs =
      (pat.map lowerAscii).isPrefixOf (cs.map lowerAscii) := by
  induction pat with
  | nil => intro cs; simp [likeMatch_percent_end]
  | cons p ps ih =>
    intro cs
    have hp := hw p (List.mem_cons_self _ _)
    have hrest : ∀ c ∈ ps, c ≠ '%' ∧ c ≠ '_' := fun x hx => hw x (List.mem_cons_of_mem _ hx)
    cases cs with
    | nil => simp [likeMatch, hp.1, List.isPrefixOf]
    | cons c cs' => simp [likeMatch, hp.1, hp.2, ih hrest, List.isPrefixOf]

/-! ## Claims -/

/-- Claim C4: the sniffer evaluates its heuristic rules in order with
first match winning — a prefix starting `00 01`/`01 00` is `Clear`; else a
vendor signature or a byte-order mark within the first 4 bytes is
`Encrypted`; else a known regional-vendor name fragment is
`LikelyEncrypted`; else `Clear`; and a read failure is `Clear`.  Stated as
agreement of the source translation `isEncryptedBgl` with the rule list
`sniffSpec` written from the spec's words. -/
theorem sniffer_matches_spec_rules (header? : Option (List Nat)) :
    classifySniff (isEncryptedBgl header?) = sniffSpec header? := by
  cases header? with
  | none => rfl
  | some h =>
    simp only [isEncryptedBgl, sniffSpec]
    split_ifs
    all_goals simp_all [classifySniff]

/-- Claim C3: for every file whose sniffer result is `Encrypted` or
`LikelyEncrypted`, ingestion fails immediately with the
encryption-detected error, the persisted store and the active-dictionary
pointer are unchanged, and the external decoder is never invoked (the
result does not depend on the decoder at all). -/
theorem encryption_detected_rejects_before_decoder
    (env : ImportEnv) (m : Manager)
    (hex : env.pathExists = true)
    (hext : ".bgl".toList.isSuffixOf (lowerStr env.path).toList = true)
    (henc : classifySniff (isEncryptedBgl env.header) = .Encrypted ∨
            classifySniff (isEncryptedBgl env.header) = .LikelyEncrypted) :
    importBgl env m = (m, false, encryptionDetectedMsg (isEncryptedBgl env.header).2) ∧
    ∀ d : String → DecodeOutcome,
      importBgl { env with decode := d } m = importBgl env m := by
  have hb : (isEncryptedBgl env.header).1 = true := by
    cases h1 : (isEncryptedBgl env.header).1 with
    | true => rfl
    | false =>
      exfalso
      have hclear : classifySniff (isEncryptedBgl env.header) = .Clear := by
        simp [classifySniff, h1]
      rcases henc with h | h <;> exact absurd (hclear.symm.trans h) (by decide)
  simp at hext
  refine ⟨?_, fun d => ?_⟩ <;> simp [importBgl, hex, hext, hb]

/-- Witness for C3: a file whose header begins `FE FF` is rejected as
encrypted, with the store untouched. -/
theorem encryption_detected_rejects_before_decoder_witness :
    importBgl
      { path := "/dicts/locked.bgl", pathExists := true, header := some [254, 255, 7, 7],
        lowercasePathExists := false, copySucceeds := true, decode := fun _ => .ok [] }
      initManager
    = (initManager, false,
       encryptionDetectedMsg (isEncryptedBgl (some [254, 255, 7, 7])).2) :=
  (encryption_detected_rejects_before_decoder _ initManager rfl (by decide)
    (Or.inl (by decide))).1

/-- Claim C7: when no dictionary is active, `search` and
`get_suggestions` return empty lists for every query; likewise when the
query is blank after trimming.  (Both are pure functions of the manager
state in this embedding: they return result lists and touch nothing.) -/
theorem search_empty_without_active_or_blank
    (m : Manager) (q : String) (lim lim2 : Nat) :
    (m.currentDictId = none → search m q lim = [] ∧ getSuggestions m q lim2 = []) ∧
    (pyStrip q = "" → search m q lim = [] ∧ getSuggestions m q lim2 = []) := by
  constructor
  · intro h
    constructor <;> simp [search, getSuggestions, noActiveDict, h]
  · intro h
    constructor <;> simp [search, getSuggestions, h]

/-- Witness for C7: a non-blank query against an inactive manager, and a
blank query against an active one, both return empty. -/
theorem search_empty_without_active_or_blank_witness :
    (search initManager "hello" 20 = [] ∧ getSuggestions initManager "hello" 10 = []) ∧
    (search { db := emptyDB, currentDictId := some 1 } "   " 20 = [] ∧
     getSuggestions { db := emptyDB, currentDictId := some 1 } "   " 10 = []) :=
  ⟨(search_empty_without_active_or_blank initManager "hello" 20 10).1 rfl,
   (search_empty_without_active_or_blank
     { db := emptyDB, currentDictId := some 1 } "   " 20 10).2 (by decide)⟩

theorem matched_word_startsWith {q w : String}
    (hw : ∀ c ∈ (lowerStr (pyStrip q)).toList, c ≠ '%' ∧ c ≠ '_')
    (hmatch : likeMatch ((lowerStr (pyStrip q)).toList ++ ['%']) (lowerStr w).toList = true) :
    (lowerStr (pyStrip q)).toList.isPrefixOf (lowerStr w).toList = true := by
  rw [likeMatch_literal _ hw] at hmatch
  rwa [toList_lowerStr, map_lowerAscii_idem, ← toList_lowerStr,
       toList_lowerStr w, map_lowerAscii_idem, ← toList_lowerStr] at hmatch

/-- Claim C2 (amended): provided the lower-cased trimmed query contains no
SQL `LIKE` wildcard (`%` or `_`), every `(word, definition)` pair returned
by `search` satisfies `lower(word).startswith(lower(trim(q)))`, the
results are sorted ascending by word and number at most `limit`
(default 20); `get_suggestions` obeys the same matching rule and returns
distinct words, at most its own `limit` (default 10).  (Without the
wildcard proviso the claim is false: see the counterexample.) -/
theorem search_prefix_sound_sorted_limited
    (m : Manager) (q : String) (lim lim2 : Nat)
    (hw : ∀ c ∈ (lowerStr (pyStrip q)).toList, c ≠ '%' ∧ c ≠ '_') :
    (∀ p ∈ search m q lim,
        (lowerStr (pyStrip q)).toList.isPrefixOf (lowerStr p.1).toList = true) ∧
    List.Sorted entryLe (search m q lim) ∧
    (search m q lim).length ≤ lim ∧
    (∀ w ∈ getSuggestions m q lim2,
        (lowerStr (pyStrip q)).toList.isPrefixOf (lowerStr w).toList = true) ∧
    (getSuggestions m q lim2).Nodup ∧
    (getSuggestions m q lim2).length ≤ lim2 := by
  by_cases hg : (noActiveDict m.currentDictId || pyStrip q == "") = true
  · refine ⟨?_, ?_, ?_, ?_, ?_, ?_⟩ <;> simp [search, getSuggestions, hg]
  · have hs : search m q lim =
        (((m.db.entries.filter fun e =>
            e.dictId == m.currentDictId.getD 0 &&
              likeMatch ((lowerStr (pyStrip q)).toList ++ ['%']) (lowerStr e.word).toList).map
          fun e => (e.word, e.defi)).insertionSort entryLe).take lim := by
      unfold search
      rw [if_neg hg]
    have hsug : getSuggestions m q lim2 =
        ((((m.db.entries.filter fun e =>
            e.dictId == m.currentDictId.getD 0 &&
              likeMatch ((lowerStr (pyStrip q)).toList ++ ['%']) (lowerStr e.word).toList).map
          fun e => e.word).insertionSort wordLe).dedup).take lim2 := by
      unfold getSuggestions
      rw [if_neg hg]
    refine ⟨?_, ?_, ?_, ?_, ?_, ?_⟩
    · intro p hp
      rw [hs] at hp
      have hp1 := List.take_subset _ _ hp
      have hp2 := (List.perm_insertionSort entryLe _).mem_iff.mp hp1
      obtain ⟨e, he, rfl⟩ := List.mem_map.mp hp2
      have hc := (List.mem_filter.mp he).2
      rw [Bool.and_eq_true] at hc
      exact matched_word_startsWith hw hc.2
    · rw [hs]
      exact (List.sorted_insertionSort entryLe _).sublist (List.take_sublist _ _)
    · rw [hs]
      exact List.length_take_le _ _
    · intro w hp
      rw [hsug] at hp
      have hp1 := List.take_subset _ _ hp
      have hp2 := (List.dedup_sublist _).subset hp1
      have hp3 := (List.perm_insertionSort wordLe _).mem_iff.mp hp2
      obtain ⟨e, he, rfl⟩ := List.mem_map.mp hp3
      have hc := (List.mem_filter.mp he).2
      rw [Bool.and_eq_true] at hc
      exact matched_word_startsWith hw hc.2
    · rw [hsug]
      exact (List.nodup_dedup _).sublist (List.take_sublist _ _)
    · rw [hsug]
      exact List.length_take_le _ _

/-- Counterexample for claim C2 as stated: the non-blank query `"_"` is a
`LIKE` wildcard, so against an active dictionary containing the word
`"ab"` the search returns `("ab", "d")` even though `"ab"` does not start
with `"_"`. -/
theorem search_wildcard_counterexample :
    search mgrC2cex "_" 20 = [("ab", "d")] ∧
    (lowerStr (pyStrip "_")).toList.isPrefixOf (lowerStr "ab").toList = false := by
  decide


/-- Witness for the amended C2 at a concrete wildcard-free query. -/
theorem search_prefix_sound_sorted_limited_witness :
    (∀ c ∈ (lowerStr (pyStrip " B ")).toList, c ≠ '%' ∧ c ≠ '_') ∧
    ((∀ p ∈ search mgrC2wit " B " 20,
        (lowerStr (pyStrip " B ")).toList.isPrefixOf (lowerStr p.1).toList = true) ∧
    List.Sorted entryLe (search mgrC2wit " B " 20) ∧
    (search mgrC2wit " B " 20).length ≤ 20 ∧
    (∀ w ∈ getSuggestions mgrC2wit " B " 10,
        (lowerStr (pyStrip " B ")).toList.isPrefixOf (lowerStr w).toList = true) ∧
    (getSuggestions mgrC2wit " B " 10).Nodup ∧
    (getSuggestions mgrC2wit " B " 10).length ≤ 10) :=
  ⟨by decide, search_prefix_sound_sorted_limited mgrC2wit " B " 20 10 (by decide)⟩

theorem history_append_ids_nodup (m : Manager) (row : HistRow)
    (hwf : wfHist m.db) (hid : row.id = m.db.nextHistId) :
    ((m.db.history ++ [row]).map (fun r => r.id)).Nodup := by
  rw [List.map_append, List.nodup_append]
  refine ⟨hwf.1, by simp, ?_⟩
  intro a ha hb
  simp only [List.map_cons, List.map_nil, List.mem_singleton] at hb
  obtain ⟨r, hr, rfl⟩ := List.mem_map.mp ha
  have := hwf.2 r hr
  omega

theorem addToHistory_blank (m : Manager) (q : String) (h : pyStrip q = "") :
    addToHistory m q = m := by
  simp [addToHistory, h]

theorem addToHistory_wf (m : Manager) (q : String) (hwf : wfHist m.db) :
    wfHist (addToHistory m q).db := by
  unfold addToHistory
  by_cases hb : (pyStrip q == "") = true
  · rw [if_pos hb]; exact hwf
  · rw [if_neg hb]
    constructor
    · have hn := history_append_ids_nodup m
        { id := m.db.nextHistId, query := pyStrip q,
          dictId := m.currentDictId, searchedAt := m.db.clock } hwf rfl
      exact hn.sublist ((List.filter_sublist _).map _)
    · intro r hr
      have hmem := List.mem_of_mem_filter hr
      rcases List.mem_append.mp hmem with h | h
      · exact Nat.lt_succ_of_lt (hwf.2 r h)
      · rw [List.mem_singleton] at h
        subst h
        exact Nat.lt_succ_self _

theorem addToHistory_le100 (m : Manager) (q : String) (hwf : wfHist m.db)
    (hlen : m.db.history.length ≤ 100) :
    (addToHistory m q).db.history.length ≤ 100 := by
  unfold addToHistory
  by_cases hb : (pyStrip q == "") = true
  · rw [if_pos hb]; exact hlen
  · rw [if_neg hb]
    have hn := history_append_ids_nodup m
      { id := m.db.nextHistId, query := pyStrip q,
        dictId := m.currentDictId, searchedAt := m.db.clock } hwf rfl
    set rows := m.db.history ++
      [{ id := m.db.nextHistId, query := pyStrip q,
         dictId := m.currentDictId, searchedAt := m.db.clock }] with hrows
    set keepL := ((rows.insertionSort histGe).take 100).map (fun r => r.id) with hkeepdef
    have hkeep : keepL.length ≤ 100 := by
      rw [hkeepdef, List.length_map]
      exact List.length_take_le _ _
    have hFn : ((rows.filter (fun r => keepL.contains r.id)).map (fun r => r.id)).Nodup :=
      hn.sublist ((List.filter_sublist _).map _)
    have hsub : ((rows.filter (fun r => keepL.contains r.id)).map (fun r => r.id)) ⊆ keepL := by
      intro a ha
      obtain ⟨r, hrF, rfl⟩ := List.mem_map.mp ha
      have hc := List.of_mem_filter hrF
      simpa using hc
    calc (rows.filter (fun r => keepL.contains r.id)).length
        = ((rows.filter (fun r => keepL.contains r.id)).map (fun r => r.id)).length := by
          rw [List.length_map]
      _ ≤ keepL.length := (List.subperm_of_subset hFn hsub).length_le
      _ ≤ 100 := hkeep

theorem foldl_addToHistory_inv (qs : List String) :
    ∀ m : Manager, wfHist m.db → m.db.history.length ≤ 100 →
      wfHist (qs.foldl addToHistory m).db ∧
      (qs.foldl addToHistory m).db.history.length ≤ 100 := by
  induction qs with
  | nil => intro m h1 h2; exact ⟨h1, h2⟩
  | cons q qs ih =>
    intro m h1 h2
    exact ih _ (addToHistory_wf _ _ h1) (addToHistory_le100 _ _ h1 h2)

/-- Claim C5: starting from any well-formed state within the cap (the
fresh database in particular), after any sequence of `add_to_history`
calls the ledger holds at most 100 records; `get_history n` returns at
most `min n 100` records, ordered newest first; and `add_to_history` is a
no-op for queries that are blank after trimming. -/
theorem history_capped_at_100
    (m : Manager) (qs : List String) (q : String) (n : Nat)
    (hwf : wfHist m.db) (hlen : m.db.history.length ≤ 100) :
    (qs.foldl addToHistory m).db.history.length ≤ 100 ∧
    (getHistory (qs.foldl addToHistory m) n).length ≤ min n 100 ∧
    List.Pairwise (fun a b : String × Nat => b.2 ≤ a.2)
      (getHistory (qs.foldl addToHistory m) n) ∧
    (pyStrip q = "" → addToHistory m q = m) := by
  obtain ⟨hwf', hlen'⟩ := foldl_addToHistory_inv qs m hwf hlen
  refine ⟨hlen', ?_, ?_, addToHistory_blank m q⟩
  · unfold getHistory
    rw [List.length_map, List.length_take,
      (List.perm_insertionSort histGe _).length_eq]
    exact min_le_min (Nat.le_refl n) hlen'
  · unfold getHistory
    exact List.Pairwise.map _ (fun a b h => h)
      ((List.sorted_insertionSort histGe _).sublist (List.take_sublist _ _))

/-- Witness for C5: two inserts from the fresh store stay within the cap;
a blank query is a no-op. -/
theorem history_capped_at_100_witness :
    (wfHist initManager.db ∧ initManager.db.history.length ≤ 100) ∧
    ((["alpha", "beta"].foldl addToHistory initManager).db.history.length ≤ 100 ∧
     (getHistory (["alpha", "beta"].foldl addToHistory initManager) 5).length ≤ min 5 100 ∧
     List.Pairwise (fun a b : String × Nat => b.2 ≤ a.2)
       (getHistory (["alpha", "beta"].foldl addToHistory initManager) 5) ∧
     (pyStrip "  " = "" → addToHistory initManager "  " = initManager)) :=
  ⟨⟨by simp [wfHist, initManager, emptyDB], by decide⟩,
   history_capped_at_100 initManager ["alpha", "beta"] "  " 5
     (by simp [wfHist, initManager, emptyDB]) (by decide)⟩

/-- Claim C6: with a dictionary active and `(w, active dictionary)` not
yet favorited, the first `add_to_favorites(w, d)` returns `True` and
creates exactly one matching row; the second returns `False` and changes
nothing. -/
theorem favorites_add_twice_unique
    (m : Manager) (w d : String) (did : Nat)
    (hcur : m.currentDictId = some did)
    (hnew : m.db.favorites.any (favMatches m.currentDictId w) = false) :
    (addToFavorites m w d).2 = true ∧
    (addToFavorites m w d).1.db.favorites.length = m.db.favorites.length + 1 ∧
    ((addToFavorites m w d).1.db.favorites.filter (favMatches (some did) w)).length = 1 ∧
    (addToFavorites (addToFavorites m w d).1 w d).2 = false ∧
    (addToFavorites (addToFavorites m w d).1 w d).1 = (addToFavorites m w d).1 := by
  have hold : ∀ r ∈ m.db.favorites, favMatches m.currentDictId w r = false := by
    rw [List.any_eq_false] at hnew
    intro r hr
    simpa using hnew r hr
  have hstep : addToFavorites m w d =
      ({ m with db := { m.db with
          favorites := m.db.favorites ++
            [{ id := m.db.nextFavId, word := w, defi := d,
               dictId := m.currentDictId, addedAt := m.db.clock }],
          nextFavId := m.db.nextFavId + 1,
          clock := m.db.clock + 1 } }, true) := by
    unfold addToFavorites
    rw [if_neg (by simp [hnew])]
  have hfilter : m.db.favorites.filter (favMatches (some did) w) = [] := by
    rw [List.filter_eq_nil_iff]
    intro a ha
    have := hold a ha
    rw [hcur] at this
    simp [this]
  refine ⟨by rw [hstep], by rw [hstep]; simp, ?_, ?_, ?_⟩
  · rw [hstep]
    simp only [List.filter_append, hfilter, List.nil_append]
    simp [favMatches, sqlEqOpt, hcur]
  · rw [hstep]
    simp [addToFavorites, favMatches, sqlEqOpt, hcur]
  · rw [hstep]
    simp [addToFavorites, favMatches, sqlEqOpt, hcur]

/-- Witness for C6: adding the same word twice to an empty favorites
table under dictionary 1. -/
theorem favorites_add_twice_unique_witness :
    (addToFavorites { db := emptyDB, currentDictId := some 1 } "salam" "hi").2 = true ∧
    (addToFavorites { db := emptyDB, currentDictId := some 1 } "salam" "hi").1.db.favorites.length
      = ({ db := emptyDB, currentDictId := some 1 } : Manager).db.favorites.length + 1 ∧
    ((addToFavorites { db := emptyDB, currentDictId := some 1 } "salam" "hi").1.db.favorites.filter
        (favMatches (some 1) "salam")).length = 1 ∧
    (addToFavorites
      (addToFavorites { db := emptyDB, currentDictId := some 1 } "salam" "hi").1 "salam" "hi").2
      = false ∧
    (addToFavorites
      (addToFavorites { db := emptyDB, currentDictId := some 1 } "salam" "hi").1 "salam" "hi").1
      = (addToFavorites { db := emptyDB, currentDictId := some 1 } "salam" "hi").1 :=
  favorites_add_twice_unique _ "salam" "hi" 1 rfl (by decide)

/-- Claim C10: with no dictionary active (`current_dict_id` is `None`,
stored as SQL `NULL`), every `add_to_favorites` returns `True` and
inserts a row — repeated adds of the same word accumulate duplicates —
while `is_favorite` and `remove_from_favorites` always return `False` for
such rows, because the SQL comparison `dictionary_id = NULL` is never
true. -/
theorem favorites_null_dict_behavior (m : Manager) (w d : String)
    (hcur : m.currentDictId = none) :
    (addToFavorites m w d).2 = true ∧
    (addToFavorites m w d).1.db.favorites.length = m.db.favorites.length + 1 ∧
    (addToFavorites (addToFavorites m w d).1 w d).2 = true ∧
    (addToFavorites (addToFavorites m w d).1 w d).1.db.favorites.length
      = m.db.favorites.length + 2 ∧
    isFavorite (addToFavorites m w d).1 w = false ∧
    removeFromFavorites (addToFavorites m w d).1 w = ((addToFavorites m w d).1, false) := by
  have hfm : ∀ (o : Option Nat) (r : FavRow), o = none → favMatches o w r = false := by
    intro o r ho
    subst ho
    cases hr : r.dictId <;> simp [favMatches, sqlEqOpt, hr]
  have hany : ∀ (l : List FavRow), l.any (favMatches m.currentDictId w) = false := by
    intro l
    rw [List.any_eq_false]
    intro r _
    simp [hfm _ r hcur]
  have hstep : addToFavorites m w d =
      ({ m with db := { m.db with
          favorites := m.db.favorites ++
            [{ id := m.db.nextFavId, word := w, defi := d,
               dictId := m.currentDictId, addedAt := m.db.clock }],
          nextFavId := m.db.nextFavId + 1,
          clock := m.db.clock + 1 } }, true) := by
    unfold addToFavorites
    rw [if_neg (by simp [hany])]
  have hany2 : ∀ (l : List FavRow),
      l.any (favMatches (addToFavorites m w d).1.currentDictId w) = false := by
    intro l
    rw [List.any_eq_false]
    intro r _
    have : (addToFavorites m w d).1.currentDictId = none := by rw [hstep]; exact hcur
    simp [hfm _ r this]
  have hstep2 : addToFavorites (addToFavorites m w d).1 w d =
      ({ (addToFavorites m w d).1 with db := { (addToFavorites m w d).1.db with
          favorites := (addToFavorites m w d).1.db.favorites ++
            [{ id := (addToFavorites m w d).1.db.nextFavId, word := w, defi := d,
               dictId := (addToFavorites m w d).1.currentDictId,
               addedAt := (addToFavorites m w d).1.db.clock }],
          nextFavId := (addToFavorites m w d).1.db.nextFavId + 1,
          clock := (addToFavorites m w d).1.db.clock + 1 } }, true) := by
    conv_lhs => rw [addToFavorites.eq_def]
    rw [if_neg (by simp [hany2])]
  refine ⟨by rw [hstep], by rw [hstep]; simp, by rw [hstep2], ?_, ?_, ?_⟩
  · rw [hstep2]
    simp only []
    rw [List.length_append, List.length_singleton]
    rw [hstep]
    simp [List.length_append]
  · unfold isFavorite
    exact hany2 _
  · unfold removeFromFavorites
    have hall : (addToFavorites m w d).1.db.favorites.filter
        (fun r => !(favMatches (addToFavorites m w d).1.currentDictId w r))
        = (addToFavorites m w d).1.db.favorites := by
      rw [List.filter_eq_self]
      intro r _
      have hc : (addToFavorites m w d).1.currentDictId = none := by rw [hstep]; exact hcur
      simp [hfm _ r hc]
    rw [hall]
    simp

/-- Witness for C10 on the fresh manager (no active dictionary). -/
theorem favorites_null_dict_behavior_witness :
    (addToFavorites initManager "x" "y").2 = true ∧
    (addToFavorites initManager "x" "y").1.db.favorites.length
      = initManager.db.favorites.length + 1 ∧
    (addToFavorites (addToFavorites initManager "x" "y").1 "x" "y").2 = true ∧
    (addToFavorites (addToFavorites initManager "x" "y").1 "x" "y").1.db.favorites.length
      = initManager.db.favorites.length + 2 ∧
    isFavorite (addToFavorites initManager "x" "y").1 "x" = false ∧
    removeFromFavorites (addToFavorites initManager "x" "y").1 "x"
      = ((addToFavorites initManager "x" "y").1, false) :=
  favorites_null_dict_behavior initManager "x" "y" rfl

/-- Claim C1 fails on the code (code bug): re-ingesting the same source
file does keep a single dictionary row per name and identical search
results, but the old entries are NOT deleted — `INSERT OR REPLACE`
assigns a fresh dictionary id (and the driver's foreign keys are off), so
the `DELETE FROM entries` aimed at the old batch targets the new id and
the first ingestion's rows stay orphaned: the entries table doubles. -/
theorem import_twice_leaves_orphaned_entries :
    (importBgl envC1 initManager).1.db.entries.map (fun e => e.dictId) = [1, 1] ∧
    (importBgl envC1 (importBgl envC1 initManager).1).1.db.entries.length = 4 ∧
    ((importBgl envC1 (importBgl envC1 initManager).1).1.db.entries.filter
        (fun e => e.dictId == 1)).length = 2 ∧
    (importBgl envC1 (importBgl envC1 initManager).1).1.db.dicts.map (fun r => r.id) = [2] ∧
    ((importBgl envC1 (importBgl envC1 initManager).1).1.db.dicts.filter
        (fun r => r.name == "farsi_basic")).length = 1 ∧
    search (importBgl envC1 (importBgl envC1 initManager).1).1 "a" 20
      = search (importBgl envC1 initManager).1 "a" 20 ∧
    (importBgl envC1 (importBgl envC1 initManager).1).1.db.entries.length
      ≠ (importBgl envC1 initManager).1.db.entries.length := by
  decide

theorem find?_filterNe_append_self (l : List DictRow) (row : DictRow) :
    ((l.filter (fun r => r.name != row.name)) ++ [row]).find? (fun r => r.name == row.name)
      = some row := by
  rw [List.find?_append]
  have h1 : (l.filter (fun r => r.name != row.name)).find? (fun r => r.name == row.name)
      = none := by
    rw [List.find?_eq_none]
    intro x hx
    have hx' := List.of_mem_filter hx
    simp only [bne_iff_ne, ne_eq] at hx'
    simp [hx']
  rw [h1]
  simp

/-- Claim C9: on a successful ingestion the dictionary name is the file's
stem with `.`, `-` and space each turned into `_`, the new dictionary
becomes the active one, and the success message carries the entry count
and the derived name. -/
theorem import_success_name_active_message
    (env : ImportEnv) (m : Manager) (raw : List RawEntry)
    (hex : env.pathExists = true)
    (hext : ".bgl".toList.isSuffixOf (lowerStr env.path).toList = true)
    (hclear : classifySniff (isEncryptedBgl env.header) = .Clear)
    (hdec : env.decode (effectivePath env) = .ok raw)
    (hcl : cleanPairs (drainedPairs raw) ≠ []) :
    (importBgl env m).2.1 = true ∧
    (importBgl env m).2.2 =
      "✅ Imported " ++ commaFmt (cleanPairs (drainedPairs raw)).length ++
      " entries from '" ++ deriveDictName env.path ++ "'" ∧
    (importBgl env m).1.currentDictId = some m.db.nextDictId ∧
    (importBgl env m).1.db.dicts.find? (fun r => r.name == deriveDictName env.path)
      = some { id := m.db.nextDictId, name := deriveDictName env.path,
               sourcePath := effectivePath env,
               wordCount := (cleanPairs (drainedPairs raw)).length, isEncrypted := false } := by
  have hfst : (isEncryptedBgl env.header).1 = false := by
    cases h1 : (isEncryptedBgl env.header).1 with
    | false => rfl
    | true =>
      exfalso
      rw [classifySniff] at hclear
      rw [h1] at hclear
      simp only [Bool.true_eq_false, if_false] at hclear
      split at hclear <;> exact absurd hclear (by decide)
  have hne : drainedPairs raw ≠ [] := by
    intro h
    apply hcl
    rw [h]
    rfl
  have hE1 : (drainedPairs raw).isEmpty = false := by
    rw [List.isEmpty_eq_false]
    exact hne
  have hE2 : (cleanPairs (drainedPairs raw)).isEmpty = false := by
    rw [List.isEmpty_eq_false]
    exact hcl
  have hfind := find?_filterNe_append_self m.db.dicts
    { id := m.db.nextDictId, name := deriveDictName env.path,
      sourcePath := effectivePath env,
      wordCount := (cleanPairs (drainedPairs raw)).length, isEncrypted := false }
  refine ⟨?_, ?_, ?_, ?_⟩ <;>
    simp only [importBgl, hex, hext, hfst, hdec, hE1, hE2, Bool.not_true, Bool.false_eq_true,
      if_false, Bool.not_false] <;>
    simp [hfind]

/-- Witness for C9: importing `farsi-basic.bgl` derives the name
`farsi_basic`, activates it and reports the two cleaned entries. -/
theorem import_success_name_active_message_witness :
    (importBgl envC9 initManager).2.1 = true ∧
    (importBgl envC9 initManager).2.2 =
      "✅ Imported " ++
        commaFmt (cleanPairs (drainedPairs
          [{ isDat := false, word := "salam", defi := "hello" },
           { isDat := true, word := "img", defi := "blob" },
           { isDat := false, word := " kook ", defi := "tuned" }])).length ++
      " entries from '" ++ deriveDictName envC9.path ++ "'" ∧
    (importBgl envC9 initManager).1.currentDictId = some initManager.db.nextDictId ∧
    (importBgl envC9 initManager).1.db.dicts.find?
        (fun r => r.name == deriveDictName envC9.path)
      = some { id := initManager.db.nextDictId, name := deriveDictName envC9.path,
               sourcePath := effectivePath envC9,
               wordCount := (cleanPairs (drainedPairs
                 [{ isDat := false, word := "salam", defi := "hello" },
                  { isDat := true, word := "img", defi := "blob" },
                  { isDat := false, word := " kook ", defi := "tuned" }])).length,
               isEncrypted := false } :=
  import_success_name_active_message envC9 initManager _ rfl (by decide) (by decide) rfl
    (by decide)

theorem scanLoop_cons_skip (existing : List String) (f : FileInfo) (fs : List FileInfo)
    (m : Manager) (h : existing.contains f.env.path = true) :
    scanLoop existing (f :: fs) m =
      ((scanLoop existing fs m).1, skipRec f.name :: (scanLoop existing fs m).2) := by
  conv_lhs => unfold scanLoop
  rw [if_pos h]

theorem scanLoop_cons_go (existing : List String) (f : FileInfo) (fs : List FileInfo)
    (m : Manager) (h : existing.contains f.env.path = false) :
    scanLoop existing (f :: fs) m =
      ((scanLoop existing fs (importBgl f.env m).1).1,
        importRec f m :: (scanLoop existing fs (importBgl f.env m).1).2) := by
  conv_lhs => unfold scanLoop
  rw [if_neg (by rw [h]; simp)]
  rfl

theorem scanLoop_length (existing : List String) :
    ∀ (fs : List FileInfo) (m : Manager), (scanLoop existing fs m).2.length = fs.length := by
  intro fs
  induction fs with
  | nil => intro m; rfl
  | cons f fs ih =>
    intro m
    cases h : existing.contains f.env.path with
    | true => rw [scanLoop_cons_skip existing f fs m h]; simp [ih]
    | false => rw [scanLoop_cons_go existing f fs m h]; simp [ih]

theorem scanLoop_get (existing : List String) :
    ∀ (fs : List FileInfo) (m : Manager) (i : Nat) (f : FileInfo),
      fs.get? i = some f →
      (existing.contains f.env.path = true →
        (scanLoop existing fs m).2.get? i = some (skipRec f.name)) ∧
      (existing.contains f.env.path = false →
        (scanLoop existing fs m).2.get? i
          = some (importRec f (scanLoop existing (fs.take i) m).1)) := by
  intro fs
  induction fs with
  | nil => intro m i f h; simp at h
  | cons g fs ih =>
    intro m i f h
    cases i with
    | zero =>
      rw [List.get?_cons_zero, Option.some_inj] at h
      subst h
      constructor
      · intro hc
        rw [scanLoop_cons_skip existing g fs m hc]
        rfl
      · intro hc
        rw [scanLoop_cons_go existing g fs m hc]
        rfl
    | succ i =>
      rw [List.get?_cons_succ] at h
      constructor
      · intro hc
        cases hg : existing.contains g.env.path with
        | true =>
          rw [scanLoop_cons_skip existing g fs m hg]
          simpa using (ih m i f h).1 hc
        | false =>
          rw [scanLoop_cons_go existing g fs m hg]
          simpa using (ih (importBgl g.env m).1 i f h).1 hc
      · intro hc
        rw [List.take_succ_cons]
        cases hg : existing.contains g.env.path with
        | true =>
          rw [scanLoop_cons_skip existing g fs m hg,
              scanLoop_cons_skip existing g (fs.take i) m hg]
          simpa using (ih m i f h).2 hc
        | false =>
          rw [scanLoop_cons_go existing g fs m hg,
              scanLoop_cons_go existing g (fs.take i) m hg]
          simpa using (ih (importBgl g.env m).1 i f h).2 hc

/-- Claim C8: `scan_and_import` yields one error record when the
directory is missing; otherwise it runs the snapshot-driven loop over the
eligible files, producing exactly one record per file (so one failure
cannot abort the rest), a `skip` record exactly when the file's absolute
path is among the recorded source paths, and otherwise the record mapped
1:1 from the ingestion pipeline's outcome at the threaded state. -/
theorem scan_and_import_records (env : ScanEnv) (m : Manager) :
    (env.dirExists = false →
      scanAndImport env m =
        (m, [{ file := none, status := "error",
               message := "Directory not found: " ++ env.directory }])) ∧
    (env.dirExists = true → (env.files.filter eligibleFile).isEmpty = false →
      scanAndImport env m
        = scanLoop (m.db.dicts.map (fun r => r.sourcePath))
            (env.files.filter eligibleFile) m) ∧
    (∀ (existing : List String) (fs : List FileInfo) (m0 : Manager),
      (scanLoop existing fs m0).2.length = fs.length) ∧
    (∀ (existing : List String) (fs : List FileInfo) (m0 : Manager) (i : Nat) (f : FileInfo),
      fs.get? i = some f →
      (existing.contains f.env.path = true →
        (scanLoop existing fs m0).2.get? i = some (skipRec f.name)) ∧
      (existing.contains f.env.path = false →
        (scanLoop existing fs m0).2.get? i
          = some (importRec f (scanLoop existing (fs.take i) m0).1))) := by
  refine ⟨?_, ?_, fun ex fs m0 => scanLoop_length ex fs m0,
    fun ex fs m0 i f h => scanLoop_get ex fs m0 i f h⟩
  · intro h
    simp [scanAndImport, h]
  · intro h1 h2
    simp [scanAndImport, h1, h2]

/-- Witness for C8: a missing directory yields the single error record; a
scan of one recorded and one new file yields one skip record and one
pipeline-mapped record. -/
theorem scan_and_import_records_witness :
    scanAndImport envC8 initManager
      = (initManager, [{ file := none, status := "error",
                          message := "Directory not found: /missing" }]) ∧
    scanAndImport envC8s initManager
      = scanLoop (initManager.db.dicts.map (fun r => r.sourcePath))
          (envC8s.files.filter eligibleFile) initManager ∧
    (scanLoop ["/dicts/old.bgl"] [fileC8skip, fileC8] initManager).2.length = 2 ∧
    (scanLoop ["/dicts/old.bgl"] [fileC8skip, fileC8] initManager).2.get? 0
      = some (skipRec "old.bgl") ∧
    (scanLoop ["/dicts/old.bgl"] [fileC8skip, fileC8] initManager).2.get? 1
      = some (importRec fileC8
          (scanLoop ["/dicts/old.bgl"] ([fileC8skip, fileC8].take 1) initManager).1) :=
  ⟨(scan_and_import_records envC8 initManager).1 rfl,
   (scan_and_import_records envC8s initManager).2.1 rfl (by decide),
   (scan_and_import_records envC8 initManager).2.2.1 ["/dicts/old.bgl"]
     [fileC8skip, fileC8] initManager,
   ((scan_and_import_records envC8 initManager).2.2.2 ["/dicts/old.bgl"]
     [fileC8skip, fileC8] initManager 0 fileC8skip rfl).1 (by decide),
   ((scan_and_import_records envC8 initManager).2.2.2 ["/dicts/old.bgl"]
     [fileC8skip, fileC8] initManager 1 fileC8 rfl).2 (by decide)⟩
